import Mathlib

set_option maxRecDepth 40000

/-!
Verification of the witness-generation layer of the plonky2 repository.

The embedding covers:
* the partial-witness store (targets, get/set with the error taxonomy),
* the n-th-root generator example (examples/n-th_root.rs),
* the generator registry and the work-list scheduler,
* the sha2 kernel test harness and a reference SHA-256,
* the rejection-sampling loop of the example's main over the Goldilocks field.

Field elements are embedded as natural numbers with arithmetic taken modulo
the field order where it matters; fallible operations return Except values.
-/

namespace Plonky2Spec

/-- A target is an opaque handle to one witness slot; embedded as a natural. -/
abbrev Target := Nat

/-- A field element value, embedded as a natural number (canonical form). -/
abbrev FVal := Nat

/-- A partial witness: a mapping from targets to optional field values. -/
abbrev Witness := Target → Option FVal

/-- The error taxonomy of the partial-witness store. -/
inductive WitnessError where
  | unassignedTarget
  | conflictingAssignment
deriving DecidableEq

/-- Modelled from the spec: the partial-witness read `get(target)` (the
witness store lives outside src/); it fails with UnassignedTarget if the
target is unset and returns the stored value otherwise. -/
def get (w : Witness) (t : Target) : Except WitnessError FVal :=
  match w t with
  | some v => Except.ok v
  | none => Except.error WitnessError.unassignedTarget

/-- Modelled from the spec: the partial-witness write `set(target, value)`
(the witness store lives outside src/); it fails with ConflictingAssignment
if a different value is already present, is an idempotent no-op if the same
value is set again, and otherwise records the value. -/
def set (w : Witness) (t : Target) (v : FVal) : Except WitnessError Witness :=
  match w t with
  | some v' => if v = v' then Except.ok w else Except.error WitnessError.conflictingAssignment
  | none => Except.ok (fun s => if s = t then some v else w s)

/-- The n-th-root generator of examples/n-th_root.rs: it owns target `x`
and depends on target `x_pow_n`. -/
structure NthRootGenerator where
  x : Target
  x_pow_n : Target
deriving DecidableEq

/-- Modelled from the spec: `kth_root_u64` of the field library (the field
crate is outside src/); on a value that is an n-th power it returns a field
n-th root, so that the companion constraint root ^ n == v holds.  Embedded
as the least natural below the field order whose n-th power is v. -/
def kth_root_u64 (p n v : Nat) : Nat :=
  (((List.range p).find? (fun u => u ^ n % p == v % p)).getD 0)

/-- `NthRootGenerator::dependencies`: returns exactly the singleton
dependency list containing `x_pow_n` (n-th_root.rs lines 32-34). -/
def NthRootGenerator.dependencies (g : NthRootGenerator) : List Target :=
  [g.x_pow_n]

/-- `NthRootGenerator::run_once` (n-th_root.rs lines 36-53): reads the
dependency `x_pow_n` from the witness, returns early writing nothing when
the const exponent N is zero, and otherwise writes the N-th root of the
read value to the owned target `x`.  The GeneratedValues out-buffer is
embedded as the returned list of (target, value) pairs; the field order is
the parameter `p`. -/
def NthRootGenerator.run_once (p N : Nat) (g : NthRootGenerator) (w : Witness) :
    Except WitnessError (List (Target × FVal)) := do
  let x_pow_n ← get w g.x_pow_n
  if N = 0 then
    pure []
  else
    pure [(g.x, kth_root_u64 p N x_pow_n)]

/-! ## Generators, registry and the work-list scheduler

Modelled from the spec: the generator interface, the generator registry and
the witness-generation scheduler live in the plonky2 iop layer, outside
src/.  A generator holds a declared dependency list, an owned-output list,
and a deterministic function from dependency values to output values; the
scheduler is the work-list fixpoint of spec section 4.3, which repeatedly
pops a ready generator (all dependencies assigned), runs it, and writes its
outputs under the write-once invariant. -/

/-- Modelled from the spec: a registered generator — declared dependency
targets, owned output targets, and a deterministic function computing the
output values from the dependency values. -/
structure Gen where
  deps : List Target
  outs : List Target
  f : List FVal → List FVal

/-- An environment assigning a generator to each generator id. -/
abbrev Env := Nat → Gen

/-- Write-once single write: record `v` at `t` if `t` is unassigned, and
keep the already-stored value otherwise (an assigned target never changes). -/
def setKeep (w : Witness) (t : Target) (v : FVal) : Witness :=
  fun s => if s = t then some ((w t).getD v) else w s

/-- Apply a list of (target, value) writes left to right, each under the
write-once invariant. -/
def writeAll (w : Witness) : List (Target × FVal) → Witness
  | [] => w
  | (t, v) :: rest => writeAll (setKeep w t v) rest

/-- The dependency values a generator reads from the witness (the scheduler
only invokes a generator when all of them are assigned). -/
def depVals (w : Witness) (ds : List Target) : List FVal :=
  ds.map (fun t => (w t).getD 0)

/-- A generator is ready when every declared dependency is assigned. -/
def ready (env : Env) (w : Witness) (i : Nat) : Bool :=
  (env i).deps.all (fun t => (w t).isSome)

/-- The (target, value) pairs generator `i` emits on witness `w`. -/
def writes (env : Env) (w : Witness) (i : Nat) : List (Target × FVal) :=
  (env i).outs.zip ((env i).f (depVals w (env i).deps))

/-- Run generator `i`: write its emitted pairs into the witness. -/
def applyGen (env : Env) (i : Nat) (w : Witness) : Witness :=
  writeAll w (writes env w i)

/-- Pop the first ready generator from the queue, returning it together
with the remaining queue. -/
def pickReady (env : Env) (w : Witness) : List Nat → Option (Nat × List Nat)
  | [] => none
  | i :: rest =>
    if ready env w i then some (i, rest)
    else
      match pickReady env w rest with
      | some (j, rest') => some (j, i :: rest')
      | none => none

/-- The work-list loop: as long as some queued generator is ready, pop it,
run it and drop it from the queue.  Each step removes one generator, so a
fuel equal to the queue length drives the loop to its fixpoint. -/
def schedAux (env : Env) : Nat → List Nat → Witness → Witness
  | 0, _, w => w
  | fuel + 1, ids, w =>
    match pickReady env w ids with
    | none => w
    | some (i, rest) => schedAux env fuel rest (applyGen env i w)

/-- Modelled from the spec: the witness-generation scheduler (spec section
4.3) run on the queue `ids` of generator ids; terminates structurally since
every iteration removes one generator from the queue. -/
def sched (env : Env) (ids : List Nat) (w : Witness) : Witness :=
  schedAux env ids.length ids w

/-- All targets owned by the queued generators. -/
def ownedTargets (env : Env) : List Nat → List Target
  | [] => []
  | i :: rest => (env i).outs ++ ownedTargets env rest

/-- Scheduling failure: some generator-owned targets were never assigned. -/
inductive SchedError where
  | unresolvedWitness (blocked : List Target)
deriving DecidableEq

/-- Modelled from the spec: full witness generation — run the scheduler to
its fixpoint, then perform the termination check: every generator-owned
target must be assigned, and any remaining unassigned target is a fatal
UnresolvedWitness naming the blocked targets. -/
def generateWitness (env : Env) (ids : List Nat) (w0 : Witness) :
    Except SchedError Witness :=
  let w := sched env ids w0
  match (ownedTargets env ids).filter (fun t => (w t).isNone) with
  | [] => Except.ok w
  | blocked => Except.error (SchedError.unresolvedWitness blocked)

/-- Pairwise ownership exclusivity over a queue: no target is owned by two
distinct queued generators. -/
abbrev OutsDisjoint (env : Env) (ids : List Nat) : Prop :=
  ∀ i ∈ ids, ∀ j ∈ ids, i ≠ j → ∀ t ∈ (env i).outs, t ∉ (env j).outs

/-- Registration error: a newly registered generator claims an owned target. -/
inductive RegError where
  | duplicateOwnership
deriving DecidableEq

/-- The targets already owned by the registered generators. -/
def ownedBy (registry : List Gen) : List Target :=
  match registry with
  | [] => []
  | g :: rest => g.outs ++ ownedBy rest

/-- Modelled from the spec: `register-generator(g)` of the circuit builder
(outside src/); it fails with DuplicateOwnership if any target `g` claims
is already owned, and otherwise appends `g` to the registry.  Registration
happens at circuit-construction time, before any witness generation. -/
def registerGenerator (registry : List Gen) (g : Gen) : Except RegError (List Gen) :=
  if g.outs.any (fun t => (ownedBy registry).contains t) then
    Except.error RegError.duplicateOwnership
  else
    Except.ok (registry ++ [g])

/-! ## Reference SHA-256 and the sha2 kernel test harness

The sha2 kernel test (src/evm/src/cpu/kernel/tests/sha2.rs) pushes a random
message of 0 to 9999 bytes onto the interpreter stack and compares the
kernel's output with a reference SHA-256 digest.  The reference hash is
implemented here in full (FIPS 180-4) over naturals reduced modulo 2^32. -/

/-- Right rotation of a 32-bit word. -/
def rotr32 (n x : Nat) : Nat := ((x >>> n) ||| (x <<< (32 - n))) % 4294967296

/-- 32-bit modular addition. -/
def add32 (a b : Nat) : Nat := (a + b) % 4294967296

/-- SHA-256 big sigma 0. -/
def bsig0 (x : Nat) : Nat := (rotr32 2 x) ^^^ (rotr32 13 x) ^^^ (rotr32 22 x)

/-- SHA-256 big sigma 1. -/
def bsig1 (x : Nat) : Nat := (rotr32 6 x) ^^^ (rotr32 11 x) ^^^ (rotr32 25 x)

/-- SHA-256 small sigma 0. -/
def ssig0 (x : Nat) : Nat := (rotr32 7 x) ^^^ (rotr32 18 x) ^^^ (x >>> 3)

/-- SHA-256 small sigma 1. -/
def ssig1 (x : Nat) : Nat := (rotr32 17 x) ^^^ (rotr32 19 x) ^^^ (x >>> 10)

/-- SHA-256 choice function. -/
def chf (x y z : Nat) : Nat := (x &&& y) ^^^ ((x ^^^ 4294967295) &&& z)

/-- SHA-256 majority function. -/
def majf (x y z : Nat) : Nat := (x &&& y) ^^^ (x &&& z) ^^^ (y &&& z)

/-- The 64 SHA-256 round constants (FIPS 180-4, in decimal). -/
def sha256K : List Nat :=
  [1116352408, 1899447441, 3049323471, 3921009573, 961987163, 1508970993,
   2453635748, 2870763221, 3624381080, 310598401, 607225278, 1426881987,
   1925078388, 2162078206, 2614888103, 3248222580, 3835390401, 4022224774,
   264347078, 604807628, 770255983, 1249150122, 1555081692, 1996064986,
   2554220882, 2821834349, 2952996808, 3210313671, 3336571891, 3584528711,
   113926993, 338241895, 666307205, 773529912, 1294757372, 1396182291,
   1695183700, 1986661051, 2177026350, 2456956037, 2730485921, 2820302411,
   3259730800, 3345764771, 3516065817, 3600352804, 4094571909, 275423344,
   430227734, 506948616, 659060556, 883997877, 958139571, 1322822218,
   1537002063, 1747873779, 1955562222, 2024104815, 2227730452, 2361852424,
   2428436474, 2756734187, 3204031479, 3329325298]

/-- The SHA-256 initial hash state (FIPS 180-4, in decimal). -/
def sha256H0 : List Nat :=
  [1779033703, 3144134277, 1013904242, 2773480762,
   1359893119, 2600822924, 528734635, 1541459225]

/-- Extend a 16-word block to the 64-word message schedule (`fuel` = 48). -/
def extendW : Nat → List Nat → List Nat
  | 0, ws => ws
  | fuel + 1, ws =>
    let n := ws.length
    extendW fuel
      (ws ++ [add32 (add32 (ssig1 (ws.getD (n - 2) 0)) (ws.getD (n - 7) 0))
                    (add32 (ssig0 (ws.getD (n - 15) 0)) (ws.getD (n - 16) 0))])

/-- The 64 SHA-256 rounds over the state [a, b, c, d, e, f, g, h]. -/
def sha256Rounds : List Nat → List Nat → List Nat → List Nat
  | k :: ks, w :: ws, [a, b, c, d, e, f, g, h] =>
    let t1 := add32 h (add32 (bsig1 e) (add32 (chf e f g) (add32 k w)))
    let t2 := add32 (bsig0 a) (majf a b c)
    sha256Rounds ks ws [add32 t1 t2, a, b, c, add32 d t1, e, f, g]
  | _, _, st => st

/-- One SHA-256 compression: schedule, rounds, then feed-forward addition. -/
def sha256Compress (h block : List Nat) : List Nat :=
  List.zipWith add32 h (sha256Rounds sha256K (extendW 48 block) h)

/-- Fold the compression over the 16-word blocks of the padded message. -/
def sha256Blocks : Nat → List Nat → List Nat → List Nat
  | 0, h, _ => h
  | _ + 1, h, [] => h
  | fuel + 1, h, ws => sha256Blocks fuel (sha256Compress h (ws.take 16)) (ws.drop 16)

/-- FIPS 180-4 padding: append 0x80, zeros up to 56 mod 64 bytes, then the
bit length as 8 big-endian bytes. -/
def sha256Pad (msg : List Nat) : List Nat :=
  msg ++ [128] ++ List.replicate ((119 - (msg.length % 64)) % 64) 0 ++
    (List.range 8).map (fun i => ((msg.length * 8) >>> (8 * (7 - i))) % 256)

/-- Group bytes into 32-bit big-endian words. -/
def bytesToWords : List Nat → List Nat
  | a :: b :: c :: d :: rest => (((a * 256 + b) * 256 + c) * 256 + d) :: bytesToWords rest
  | _ => []

/-- The reference SHA-256 digest of a byte list, as one 256-bit natural. -/
def sha256Num (msg : List Nat) : Nat :=
  let ws := bytesToWords (sha256Pad msg)
  (sha256Blocks ws.length sha256H0 ws).foldl (fun acc w => acc * 4294967296 + w) 0

/-- The initial interpreter stack built by test_sha2 (sha2.rs lines 27-32):
the byte count, then the message bytes, then the return marker 0xdeadbeef,
all reversed. -/
def encodeStack (msg : List Nat) : List Nat :=
  (msg.length :: (msg ++ [3735928559])).reverse

/-- Modelled from the spec: the sha2 kernel routine together with the
kernel interpreter (EVM kernel assembly, outside src/); it pops the byte
count off the top of the stack, reads that many message bytes, and leaves
the 256-bit SHA-256 digest of those bytes on the stack. -/
def runSha2Kernel (stack : List Nat) : Option Nat :=
  match stack.reverse with
  | n :: rest => if n ≤ rest.length then some (sha256Num (rest.take n)) else none
  | [] => none

/-! ## The Goldilocks field and the rejection-sampling loop of main -/

/-- The Goldilocks prime 2^64 - 2^32 + 1, the field order used by main. -/
def goldilocks : Nat := 18446744069414584321

/-- The exponent computed in main line 79: (p - 1) / N with N = 3. -/
def goldiEuler : Nat := (goldilocks - 1) / 3

/-- Binary modular exponentiation: `powModAux m a fuel e` equals
a ^ e % m whenever e < 2 ^ fuel. -/
def powModAux (m a : Nat) : Nat → Nat → Nat
  | 0, _ => 1 % m
  | fuel + 1, e =>
    if e = 0 then 1 % m
    else
      let r := powModAux m (a * a % m) fuel (e / 2)
      if e % 2 = 1 then r * a % m else r

/-- The rejection-sampling loop of main (n-th_root.rs lines 80-86) run over
an externally supplied stream of field samples: keep drawing until the draw
satisfies val ^ ((p-1)/N) = 1, and return that draw (none if the stream is
exhausted first).  Field exponentiation is mod-p arithmetic on canonical
representatives. -/
def rejectionLoop (p euler : Nat) : List Nat → Option Nat
  | [] => none
  | v :: rest =>
    let val := v % p
    if powModAux p val 64 euler = 1 then some val else rejectionLoop p euler rest

/-- The two-generator cycle of the spec's cycle-detection scenario:
generator 0 owns `a` and depends on `b`; generator 1 owns `b` and depends
on `a`. -/
def cycEnv (a b : Target) (f g : List FVal → List FVal) : Env :=
  fun i => if i = 0 then Gen.mk [b] [a] f else Gen.mk [a] [b] g

/-! ## Theorems -/

/-- Helper: a target owned by a registered generator is in the owned list. -/
theorem mem_ownedBy {t : Target} :
    ∀ {registry : List Gen} {g : Gen}, g ∈ registry → t ∈ g.outs → t ∈ ownedBy registry := by
  intro registry
  induction registry with
  | nil => intro g hg; cases hg
  | cons g' rest ih =>
    intro g hg ht
    rcases List.mem_cons.mp hg with hg | hg
    · exact List.mem_append.mpr (Or.inl (hg ▸ ht))
    · exact List.mem_append.mpr (Or.inr (ih hg ht))

/-- C8: `dependencies()` is pure and fixed at registration: for the
n-th-root generator it is exactly the singleton list holding `x_pow_n`,
taking no witness argument, hence independent of any witness state and
identical across calls. -/
theorem nth_root_dependencies_pure (g : NthRootGenerator) :
    NthRootGenerator.dependencies g = [g.x_pow_n] := rfl

/-- C9: with the dependency readable, `run_once` writes nothing when the
const exponent N is 0 (the early return of n-th_root.rs lines 44-46), and
writes exactly one value, to the owned target `x`, when N is nonzero
(lines 48-52). -/
theorem nth_root_run_once_writes (p N : Nat) (g : NthRootGenerator) (w : Witness) (v : FVal)
    (h : w g.x_pow_n = some v) :
    (N = 0 → NthRootGenerator.run_once p N g w = Except.ok []) ∧
    (N ≠ 0 → NthRootGenerator.run_once p N g w = Except.ok [(g.x, kth_root_u64 p N v)]) := by
  constructor <;> intro hN <;> simp [NthRootGenerator.run_once, get, h, hN]

/-- Witness for C9 at the toy field 31: with 27 stored at the dependency,
exponent 0 writes nothing and exponent 3 writes exactly the root at `x`. -/
theorem nth_root_run_once_writes_witness :
    NthRootGenerator.run_once 31 0 ⟨1, 0⟩ (fun t => if t = 0 then some 27 else none) =
      Except.ok [] ∧
    NthRootGenerator.run_once 31 3 ⟨1, 0⟩ (fun t => if t = 0 then some 27 else none) =
      Except.ok [(1, kth_root_u64 31 3 27)] :=
  ⟨(nth_root_run_once_writes 31 0 ⟨1, 0⟩ _ 27 rfl).1 rfl,
   (nth_root_run_once_writes 31 3 ⟨1, 0⟩ _ 27 rfl).2 (by decide)⟩

/-- C7: `get` fails with UnassignedTarget exactly on unset targets, and on
any witness where all declared dependencies of an n-th-root generator are
assigned — the only witnesses on which the scheduler invokes `run` — the
`get_target` read of `x_pow_n` inside `run_once` succeeds, so it never hits
the UnassignedTarget error. -/
theorem get_unassigned_iff_run_once_safe :
    (∀ (w : Witness) (t : Target),
      get w t = Except.error WitnessError.unassignedTarget ↔ w t = none) ∧
    (∀ (p N : Nat) (g : NthRootGenerator) (w : Witness),
      (∀ t ∈ g.dependencies, (w t).isSome = true) →
      (∃ v, get w g.x_pow_n = Except.ok v) ∧
      ∃ l, NthRootGenerator.run_once p N g w = Except.ok l) := by
  constructor
  · intro w t
    unfold get
    cases h : w t <;> simp
  · intro p N g w h
    have hd : (w g.x_pow_n).isSome = true :=
      h g.x_pow_n (by simp [NthRootGenerator.dependencies])
    obtain ⟨v, hv⟩ := Option.isSome_iff_exists.mp hd
    refine ⟨⟨v, by simp [get, hv]⟩, ?_⟩
    by_cases hN : N = 0
    · exact ⟨[], by simp [NthRootGenerator.run_once, get, hv, hN]⟩
    · exact ⟨[(g.x, kth_root_u64 p N v)], by simp [NthRootGenerator.run_once, get, hv, hN]⟩

/-- Witness for C7: `get` errors on an unset target and succeeds on the
dependency of a generator whose dependencies are all assigned. -/
theorem get_unassigned_iff_run_once_safe_witness :
    get (fun _ => none) 0 = Except.error WitnessError.unassignedTarget ∧
    ∃ v, get (fun t => if t = 0 then some 27 else none) 0 = Except.ok v :=
  ⟨(get_unassigned_iff_run_once_safe.1 (fun _ => none) 0).mpr rfl,
   (get_unassigned_iff_run_once_safe.2 31 3 ⟨1, 0⟩
      (fun t => if t = 0 then some 27 else none) (by decide)).1⟩

/-- C4: once `set(t, v1)` succeeds, the stored value is v1; a later
`set(t, v2)` with v2 different from v1 fails with ConflictingAssignment,
`set(t, v1)` again succeeds as a no-op, and no successful `set` ever
changes an assigned target's value. -/
theorem set_write_once (w : Witness) (t : Target) (v1 : FVal) (w1 : Witness)
    (h : set w t v1 = Except.ok w1) :
    w1 t = some v1 ∧
    (∀ v2, v2 ≠ v1 → set w1 t v2 = Except.error WitnessError.conflictingAssignment) ∧
    set w1 t v1 = Except.ok w1 ∧
    (∀ s v, w s = some v → w1 s = some v) := by
  have hM : w1 t = some v1 ∧ (∀ s v, w s = some v → w1 s = some v) := by
    unfold set at h
    split at h
    next v' hw =>
      split at h
      next hv =>
        cases h
        exact ⟨by rw [hw, hv], fun s v hs => hs⟩
      next hv => cases h
    next hw =>
      cases h
      refine ⟨by simp, fun s v hs => ?_⟩
      by_cases hst : s = t
      · rw [hst, hw] at hs; cases hs
      · simp [hst, hs]
  obtain ⟨h1, h4⟩ := hM
  refine ⟨h1, ?_, ?_, h4⟩
  · intro v2 hv2
    unfold set
    rw [h1]
    simp [hv2]
  · unfold set
    rw [h1]
    simp

/-- Witness for C4: after storing 5 at target 0, setting 6 there fails with
ConflictingAssignment and re-setting 5 is a no-op success. -/
theorem set_write_once_witness :
    set (fun s => if s = 0 then some 5 else none) 0 6 =
      Except.error WitnessError.conflictingAssignment ∧
    set (fun s => if s = 0 then some 5 else none) 0 5 =
      Except.ok (fun s => if s = 0 then some 5 else none) := by
  have h := set_write_once (fun _ => none) 0 5 (fun s => if s = 0 then some 5 else none) rfl
  exact ⟨h.2.1 6 (by decide), h.2.2.1⟩

/-- C5: if some target lies in both generators' owned-output lists, then
registering the second after the first fails with DuplicateOwnership — at
registration time, before any witness generation exists. -/
theorem register_duplicate_ownership (registry : List Gen) (g1 g2 : Gen)
    (registry1 : List Gen) (t : Target) (ht1 : t ∈ g1.outs) (ht2 : t ∈ g2.outs)
    (h : registerGenerator registry g1 = Except.ok registry1) :
    registerGenerator registry1 g2 = Except.error RegError.duplicateOwnership := by
  unfold registerGenerator at h
  by_cases hc : g1.outs.any (fun s => (ownedBy registry).contains s)
  · rw [if_pos hc] at h; cases h
  · rw [if_neg hc] at h
    cases h
    have hmem : t ∈ ownedBy (registry ++ [g1]) :=
      mem_ownedBy (List.mem_append.mpr (Or.inr (List.mem_singleton.mpr rfl))) ht1
    have hany : g2.outs.any (fun s => (ownedBy (registry ++ [g1])).contains s) = true :=
      List.any_eq_true.mpr ⟨t, ht2, by simpa [List.elem_iff] using hmem⟩
    unfold registerGenerator
    rw [if_pos hany]

/-- Witness for C5: two generators both claiming target 0 — the second
registration fails with DuplicateOwnership. -/
theorem register_duplicate_ownership_witness :
    registerGenerator [Gen.mk [] [0] (fun _ => [])] (Gen.mk [] [0] (fun _ => [])) =
      Except.error RegError.duplicateOwnership :=
  register_duplicate_ownership [] (Gen.mk [] [0] (fun _ => [])) (Gen.mk [] [0] (fun _ => []))
    [Gen.mk [] [0] (fun _ => [])] 0 (by decide) (by decide) rfl

/-- C1: when the dependency holds an n-th power v (and N is nonzero, as in
main where N = 3), `run_once` assigns to the owned target `x` a value u
with u ^ N == v in the field, the companion constraint of the circuit. -/
theorem nth_root_generator_correct (p N : Nat) (g : NthRootGenerator) (w : Witness) (v : FVal)
    (hp : 0 < p) (hN : N ≠ 0) (hw : w g.x_pow_n = some v) (hpow : ∃ u, u ^ N % p = v % p) :
    ∃ u, NthRootGenerator.run_once p N g w = Except.ok [(g.x, u)] ∧ u ^ N % p = v % p := by
  refine ⟨kth_root_u64 p N v, by simp [NthRootGenerator.run_once, get, hw, hN], ?_⟩
  obtain ⟨u, hu⟩ := hpow
  have hpred : (fun x => x ^ N % p == v % p) (u % p) = true := by
    simp only [beq_iff_eq]
    rw [← Nat.pow_mod]
    exact hu
  have hsome : ((List.range p).find? (fun x => x ^ N % p == v % p)).isSome :=
    List.find?_isSome.mpr ⟨u % p, List.mem_range.mpr (Nat.mod_lt _ hp), hpred⟩
  obtain ⟨r, hr⟩ := Option.isSome_iff_exists.mp hsome
  have hrp := List.find?_some hr
  unfold kth_root_u64
  rw [hr]
  simpa using hrp

/-- Witness for C1, the toy-field case of the spec: field order 31 (3
divides 30), v = 27: generation yields a cube root of 27, namely u = 3
exactly. -/
theorem nth_root_generator_correct_witness :
    (∃ u, NthRootGenerator.run_once 31 3 ⟨1, 0⟩
        (fun t => if t = 0 then some 27 else none) = Except.ok [(1, u)] ∧
        u ^ 3 % 31 = 27 % 31) ∧
    NthRootGenerator.run_once 31 3 ⟨1, 0⟩ (fun t => if t = 0 then some 27 else none) =
      Except.ok [(1, 3)] :=
  ⟨nth_root_generator_correct 31 3 ⟨1, 0⟩ _ 27 (by decide) (by decide) rfl ⟨3, by decide⟩,
   rfl⟩

/-- C6: the synthetic two-generator cycle — generator 0's only output is
generator 1's only dependency and vice versa — terminates (the scheduler is
a structurally terminating work list) with an UnresolvedWitness deadlock
error naming the two blocked targets. -/
theorem cycle_deadlock (a b : Target) (f g : List FVal → List FVal) :
    generateWitness (cycEnv a b f g) [0, 1] (fun _ => none) =
      Except.error (SchedError.unresolvedWitness [a, b]) := rfl

/-! ### Scheduler determinism -/

/-- A write-once write never changes an assigned slot. -/
theorem setKeep_preserve {w : Witness} {s t : Target} {v u : FVal} (h : w s = some v) :
    setKeep w t u s = some v := by
  by_cases hst : s = t
  · subst hst; simp [setKeep, h]
  · simp [setKeep, hst, h]

/-- A write list never changes an assigned slot. -/
theorem writeAll_preserve {s : Target} {v : FVal} :
    ∀ (l : List (Target × FVal)) (w : Witness), w s = some v → writeAll w l s = some v := by
  intro l
  induction l with
  | nil => intro w h; exact h
  | cons q rest ih =>
    intro w h
    obtain ⟨t, u⟩ := q
    exact ih _ (setKeep_preserve h)

/-- A write list leaves slots outside its key set untouched. -/
theorem writeAll_not_mem {s : Target} :
    ∀ (l : List (Target × FVal)) (w : Witness), (∀ q ∈ l, q.1 ≠ s) → writeAll w l s = w s := by
  intro l
  induction l with
  | nil => intro w _; rfl
  | cons q rest ih =>
    intro w h
    obtain ⟨t, u⟩ := q
    have ht : t ≠ s := h (t, u) (List.mem_cons_self _ _)
    have hrest : ∀ q ∈ rest, q.1 ≠ s := fun q hq => h q (List.mem_cons_of_mem _ hq)
    rw [show writeAll w ((t, u) :: rest) s = writeAll (setKeep w t u) rest s from rfl,
        ih _ hrest]
    unfold setKeep
    rw [if_neg (fun he : s = t => ht he.symm)]

/-- The value a write list leaves at a slot depends only on the incoming
value at that slot. -/
theorem writeAll_agree {s : Target} :
    ∀ (l : List (Target × FVal)) (w w' : Witness),
      w s = w' s → writeAll w l s = writeAll w' l s := by
  intro l
  induction l with
  | nil => intro w w' h; exact h
  | cons q rest ih =>
    intro w w' h
    obtain ⟨t, u⟩ := q
    refine ih _ _ ?_
    by_cases hst : s = t
    · subst hst; simp [setKeep, h]
    · simp [setKeep, hst, h]

/-- Running a generator never changes an assigned slot. -/
theorem applyGen_preserve (env : Env) (i : Nat) {w : Witness} {s : Target} {v : FVal}
    (h : w s = some v) : applyGen env i w s = some v :=
  writeAll_preserve _ _ h

/-- Running a generator leaves every assigned slot with its old value. -/
theorem applyGen_assigned (env : Env) (i : Nat) {w : Witness} {t : Target}
    (h : (w t).isSome = true) : applyGen env i w t = w t := by
  obtain ⟨v, hv⟩ := Option.isSome_iff_exists.mp h
  rw [applyGen_preserve env i hv, hv]

/-- Dependency values are determined by the witness at the dependencies. -/
theorem depVals_agree {ds : List Target} {w w' : Witness} (h : ∀ t ∈ ds, w t = w' t) :
    depVals w ds = depVals w' ds := by
  unfold depVals
  exact List.map_congr_left (fun t ht => by rw [h t ht])

/-- A ready generator's dependency values survive another generator's run. -/
theorem depVals_stable (env : Env) {w : Witness} {i : Nat} (j : Nat)
    (hr : ready env w i = true) :
    depVals (applyGen env j w) (env i).deps = depVals w (env i).deps := by
  refine depVals_agree (fun t ht => ?_)
  exact applyGen_assigned env j (List.all_eq_true.mp hr t ht)

/-- A ready generator emits the same writes after another generator's run. -/
theorem writes_stable (env : Env) {w : Witness} {i : Nat} (j : Nat)
    (hr : ready env w i = true) :
    writes env (applyGen env j w) i = writes env w i := by
  unfold writes
  rw [depVals_stable env j hr]

/-- Readiness is monotone: running a generator never unreadies another. -/
theorem ready_mono (env : Env) (j : Nat) {w : Witness} {k : Nat}
    (hr : ready env w k = true) : ready env (applyGen env j w) k = true := by
  unfold ready at hr ⊢
  rw [List.all_eq_true] at hr ⊢
  intro t ht
  rw [applyGen_assigned env j (hr t ht)]
  exact hr t ht

/-- Every key a generator writes lies in its owned-output list. -/
theorem writes_fst_mem {env : Env} {w : Witness} {i : Nat} {q : Target × FVal}
    (h : q ∈ writes env w i) : q.1 ∈ (env i).outs := by
  obtain ⟨t, u⟩ := q
  exact (List.of_mem_zip h).1

/-- Two write lists with disjoint key sets commute. -/
theorem writeAll_swap (l1 l2 : List (Target × FVal)) (w : Witness)
    (hdisj : ∀ q ∈ l1, ∀ r ∈ l2, q.1 ≠ r.1) :
    writeAll (writeAll w l1) l2 = writeAll (writeAll w l2) l1 := by
  funext s
  by_cases h1 : ∀ q ∈ l1, q.1 ≠ s
  · by_cases h2 : ∀ q ∈ l2, q.1 ≠ s
    · rw [writeAll_not_mem _ _ h2, writeAll_not_mem _ _ h1,
          writeAll_not_mem _ _ h1, writeAll_not_mem _ _ h2]
    · rw [writeAll_not_mem _ _ h1, writeAll_agree l2 _ _ (writeAll_not_mem _ _ h1)]
  · push_neg at h1
    obtain ⟨q, hq, hqs⟩ := h1
    have h2 : ∀ r ∈ l2, r.1 ≠ s := fun r hr he => hdisj q hq r hr (hqs.trans he.symm)
    rw [writeAll_not_mem _ _ h2, writeAll_agree l1 _ _ (writeAll_not_mem _ _ h2)]

/-- Two ready generators with disjoint owned outputs commute. -/
theorem applyGen_comm (env : Env) {w : Witness} {i j : Nat}
    (hri : ready env w i = true) (hrj : ready env w j = true)
    (hdisj : ∀ t ∈ (env i).outs, t ∉ (env j).outs) :
    applyGen env i (applyGen env j w) = applyGen env j (applyGen env i w) := by
  show writeAll (applyGen env j w) (writes env (applyGen env j w) i) =
       writeAll (applyGen env i w) (writes env (applyGen env i w) j)
  rw [writes_stable env j hri, writes_stable env i hrj]
  exact writeAll_swap (writes env w j) (writes env w i) w
    (fun q hq r hr he =>
      hdisj r.1 (writes_fst_mem hr) (he ▸ writes_fst_mem hq))

/-- What a successful pop returns: a ready member, with the rest of the
queue being the queue minus that member. -/
theorem pickReady_some (env : Env) {w : Witness} :
    ∀ {ids : List Nat} {i : Nat} {rest : List Nat},
      pickReady env w ids = some (i, rest) →
      i ∈ ids ∧ ready env w i = true ∧ rest = ids.erase i := by
  intro ids
  induction ids with
  | nil => intro i rest h; cases h
  | cons a as ih =>
    intro i rest h
    unfold pickReady at h
    by_cases ha : ready env w a = true
    · rw [if_pos ha] at h
      cases h
      exact ⟨List.mem_cons_self _ _, ha, (List.erase_cons_head a as).symm⟩
    · rw [if_neg ha] at h
      cases hrec : pickReady env w as with
      | none => rw [hrec] at h; cases h
      | some pr =>
        obtain ⟨j, rest'⟩ := pr
        rw [hrec] at h
        cases h
        obtain ⟨hj, hrj, hre⟩ := ih hrec
        have hja : a ≠ i := fun he => ha (he ▸ hrj)
        refine ⟨List.mem_cons_of_mem _ hj, hrj, ?_⟩
        rw [List.erase_cons, if_neg (by simp [hja]), hre]

/-- A failed pop means no queued generator is ready. -/
theorem pickReady_none (env : Env) {w : Witness} :
    ∀ {ids : List Nat}, pickReady env w ids = none →
      ∀ j ∈ ids, ready env w j = false := by
  intro ids
  induction ids with
  | nil => intro _ j hj; cases hj
  | cons a as ih =>
    intro h j hj
    unfold pickReady at h
    by_cases ha : ready env w a = true
    · rw [if_pos ha] at h; cases h
    · rw [if_neg ha] at h
      rcases List.mem_cons.mp hj with hj | hj
      · subst hj; exact Bool.not_eq_true _ ▸ (by simpa using ha)
      · cases hrec : pickReady env w as with
        | none => exact ih hrec j hj
        | some pr => obtain ⟨x, y⟩ := pr; rw [hrec] at h; cases h

/-- If no queued generator is ready the pop fails. -/
theorem pickReady_none_of_all (env : Env) (w : Witness) :
    ∀ (ids : List Nat), (∀ j ∈ ids, ready env w j = false) →
      pickReady env w ids = none := by
  intro ids
  induction ids with
  | nil => intro _; rfl
  | cons a as ih =>
    intro h
    unfold pickReady
    rw [if_neg (by simp [h a (List.mem_cons_self _ _)]),
        ih (fun j hj => h j (List.mem_cons_of_mem _ hj))]

/-- A scheduler run with nothing ready is a fixpoint. -/
theorem sched_none (env : Env) {ids : List Nat} {w : Witness}
    (h : pickReady env w ids = none) : sched env ids w = w := by
  unfold sched
  cases hl : ids.length with
  | zero => rfl
  | succ n => simp [schedAux, h]

/-- Ownership exclusivity restricts along sub-queues. -/
theorem outsDisjoint_sub {env : Env} {ids ids' : List Nat}
    (hsub : ∀ x ∈ ids', x ∈ ids) (h : OutsDisjoint env ids) : OutsDisjoint env ids' :=
  fun i hi j hj hij => h i (hsub _ hi) j (hsub _ hj) hij

/-- Exchange lemma: running any ready queued generator immediately, and
then scheduling the rest, gives the same witness the scheduler produces on
the full queue. -/
theorem sched_run_ready (env : Env) :
    ∀ (n : Nat) (ids : List Nat) (w : Witness) (i : Nat),
      ids.length ≤ n → OutsDisjoint env ids → i ∈ ids → ready env w i = true →
      sched env ids w = sched env (ids.erase i) (applyGen env i w) := by
  intro n
  induction n with
  | zero =>
    intro ids w i hlen _ hi _
    rw [List.length_eq_zero.mp (Nat.le_zero.mp hlen)] at hi
    cases hi
  | succ n ih =>
    intro ids w i hlen hdisj hi hri
    cases hpick : pickReady env w ids with
    | none => exact absurd (pickReady_none env hpick i hi) (by simp [hri])
    | some pr =>
      obtain ⟨j, rest⟩ := pr
      obtain ⟨hj, hrj, hrest⟩ := pickReady_some env hpick
      have hlpos : ids.length ≠ 0 :=
        fun he => by rw [List.length_eq_zero.mp he] at hi; cases hi
      obtain ⟨m, hm⟩ := Nat.exists_eq_succ_of_ne_zero hlpos
      have hstep : sched env ids w = sched env rest (applyGen env j w) := by
        unfold sched
        rw [hm]
        simp only [schedAux, hpick]
        have hrl : rest.length = m := by
          rw [hrest, List.length_erase_of_mem hj, hm]
          omega
        rw [hrl]
      by_cases hij : j = i
      · subst hij
        rw [hstep, hrest]
      · subst hrest
        have hdisj' : ∀ t ∈ (env i).outs, t ∉ (env j).outs :=
          hdisj i hi j hj (fun he => hij he.symm)

        have hi' : i ∈ ids.erase j := (List.mem_erase_of_ne (fun he => hij he.symm)).mpr hi
        have hj' : j ∈ ids.erase i := (List.mem_erase_of_ne hij).mpr hj
        have hlen1 : (ids.erase j).length ≤ n := by
          rw [List.length_erase_of_mem hj]; omega
        have hlen2 : (ids.erase i).length ≤ n := by
          rw [List.length_erase_of_mem hi]; omega
        rw [hstep,
            ih (ids.erase j) (applyGen env j w) i hlen1
              (outsDisjoint_sub (fun x hx => List.mem_of_mem_erase hx) hdisj) hi'
              (ready_mono env j hri),
            ih (ids.erase i) (applyGen env i w) j hlen2
              (outsDisjoint_sub (fun x hx => List.mem_of_mem_erase hx) hdisj) hj'
              (ready_mono env i hrj),
            List.erase_comm,
            applyGen_comm env hri hrj hdisj']

/-- Permuting the queue does not change the scheduler's final witness. -/
theorem sched_perm (env : Env) :
    ∀ (n : Nat) (ids ids' : List Nat) (w : Witness),
      ids.length ≤ n → ids.Perm ids' → OutsDisjoint env ids →
      sched env ids w = sched env ids' w := by
  intro n
  induction n with
  | zero =>
    intro ids ids' w hlen hperm _
    have h1 : ids = [] := List.length_eq_zero.mp (Nat.le_zero.mp hlen)
    subst h1
    rw [hperm.symm.eq_nil]
  | succ n ih =>
    intro ids ids' w hlen hperm hdisj
    cases hpick : pickReady env w ids with
    | none =>
      have hnone' : pickReady env w ids' = none :=
        pickReady_none_of_all env w ids'
          (fun j hj => pickReady_none env hpick j (hperm.mem_iff.mpr hj))
      rw [sched_none env hpick, sched_none env hnone']
    | some pr =>
      obtain ⟨i, rest⟩ := pr
      obtain ⟨hi, hri, _⟩ := pickReady_some env hpick
      rw [sched_run_ready env (n + 1) ids w i hlen hdisj hi hri,
          sched_run_ready env (n + 1) ids' w i (hperm.length_eq ▸ hlen)
            (outsDisjoint_sub (fun x hx => hperm.mem_iff.mpr hx) hdisj)
            (hperm.mem_iff.mp hi) hri]
      apply ih
      · rw [List.length_erase_of_mem hi]; omega
      · exact hperm.erase i
      · exact outsDisjoint_sub (fun x hx => List.mem_of_mem_erase hx) hdisj

/-- C2: witness generation is deterministic.  First, for a fixed circuit
(generator environment with registration-enforced ownership exclusivity)
and fixed initial witness, scheduler runs under any two ready-queue pop
orders produce identical complete witnesses.  Second, the writes a
generator emits are a deterministic function of the witness values of its
declared dependencies only. -/
theorem witness_generation_deterministic :
    (∀ (env : Env) (ids ids' : List Nat) (w : Witness),
      ids.Perm ids' → OutsDisjoint env ids →
      sched env ids w = sched env ids' w) ∧
    (∀ (env : Env) (i : Nat) (w w' : Witness),
      (∀ t ∈ (env i).deps, w t = w' t) → writes env w i = writes env w' i) := by
  constructor
  · intro env ids ids' w hperm hdisj
    exact sched_perm env ids.length ids ids' w (le_refl _) hperm hdisj
  · intro env i w w' h
    unfold writes
    rw [depVals_agree h]

/-- Witness for C2: a two-generator pipeline (generator 1 consumes the
output of generator 0) scheduled under both pop orders gives the same
witness. -/
theorem witness_generation_deterministic_witness :
    sched (fun k => if k = 0 then Gen.mk [] [0] (fun _ => [5])
                    else Gen.mk [0] [1] (fun vs => [vs.headD 0 + 1]))
      [0, 1] (fun _ => none) =
    sched (fun k => if k = 0 then Gen.mk [] [0] (fun _ => [5])
                    else Gen.mk [0] [1] (fun vs => [vs.headD 0 + 1]))
      [1, 0] (fun _ => none) :=
  witness_generation_deterministic.1 _ [0, 1] [1, 0] _ (by decide) (by decide)

/-! ### The sha2 kernel scenario -/

/-- Cross-check of the reference hash against the standard SHA-256 test
vector for the empty message. -/
theorem sha256Num_empty_vector :
    sha256Num [] =
      0xe3b0c44298fc1c149afbf4c8996fb92427ae41e4649b934ca495991b7852b855 := by
  decide

/-- Cross-check of the reference hash against the standard SHA-256 test
vector for the three-byte message abc. -/
theorem sha256Num_abc_vector :
    sha256Num [0x61, 0x62, 0x63] =
      0xba7816bf8f01cfea414140de5dae2223b00361a396177a9cb410ff61f20015ad := by
  decide

/-- C3: for every byte sequence of length 0 to 9999 loaded onto the
interpreter stack as in test_sha2, the sha2 kernel's output equals the
digest the reference SHA-256 implementation computes over the same bytes. -/
theorem sha2_kernel_matches_reference (msg : List Nat)
    (_hlen : msg.length ≤ 9999) (_hbytes : ∀ b ∈ msg, b < 256) :
    runSha2Kernel (encodeStack msg) = some (sha256Num msg) := by
  unfold runSha2Kernel encodeStack
  rw [List.reverse_reverse]
  have h1 : msg.length ≤ (msg ++ [3735928559]).length := by simp
  show (if msg.length ≤ (msg ++ [3735928559]).length then
      some (sha256Num ((msg ++ [3735928559]).take msg.length)) else none) =
    some (sha256Num msg)
  rw [if_pos h1, List.take_left]

/-- Witness for C3 at the empty message: the kernel output on the encoded
stack is the reference digest of the empty byte sequence. -/
theorem sha2_kernel_matches_reference_witness :
    ([] : List Nat).length ≤ 9999 ∧
    runSha2Kernel (encodeStack []) = some (sha256Num []) :=
  ⟨by decide, sha2_kernel_matches_reference [] (by decide) (by decide)⟩

/-! ### The rejection-sampling loop of main -/

/-- Correctness of binary modular exponentiation. -/
theorem powModAux_correct (m : Nat) :
    ∀ (fuel a e : Nat), e < 2 ^ fuel → powModAux m a fuel e = a ^ e % m := by
  intro fuel
  induction fuel with
  | zero =>
    intro a e he
    have he0 : e = 0 := by omega
    subst he0
    simp [powModAux]
  | succ fuel ih =>
    intro a e he
    by_cases he0 : e = 0
    · subst he0; simp [powModAux]
    · have hlt : e / 2 < 2 ^ fuel := by
        rw [Nat.div_lt_iff_lt_mul (by omega : 0 < 2)]
        calc e < 2 ^ (fuel + 1) := he
          _ = 2 ^ fuel * 2 := by ring
      simp only [powModAux, if_neg he0]
      rw [ih (a * a % m) (e / 2) hlt, ← Nat.pow_mod]
      have hsq : (a * a) ^ (e / 2) = a ^ (2 * (e / 2)) := by
        rw [← pow_two, ← pow_mul]
      by_cases hodd : e % 2 = 1
      · rw [if_pos hodd, hsq, Nat.mod_mul_mod, ← pow_succ]
        have he2 : 2 * (e / 2) + 1 = e := by omega
        rw [he2]
      · rw [if_neg hodd, hsq]
        have he2 : 2 * (e / 2) = e := by omega
        rw [he2]

/-- Casting a power of 7 into the Goldilocks field through the verified
modular exponentiation. -/
theorem seven_pow_cast (e : Nat) (he : e < 2 ^ 64) :
    (7 : ZMod goldilocks) ^ e = ((powModAux goldilocks 7 64 e : Nat) : ZMod goldilocks) := by
  rw [powModAux_correct goldilocks 64 7 e he]
  have h7 : ((7 : ℕ) : ZMod goldilocks) = (7 : ZMod goldilocks) := by norm_cast
  rw [ZMod.natCast_mod, Nat.cast_pow, h7]

/-- The six primes dividing goldilocks - 1 = 2^32 * 3 * 5 * 17 * 257 * 65537. -/
theorem goldilocks_sub_one_primes {q : Nat} (hq : q.Prime) (hdvd : q ∣ goldilocks - 1) :
    q = 2 ∨ q = 3 ∨ q = 5 ∨ q = 17 ∨ q = 257 ∨ q = 65537 := by
  have hfact : goldilocks - 1 = 2 ^ 32 * (3 * (5 * (17 * (257 * 65537)))) := by decide
  rw [hfact] at hdvd
  rcases (Nat.Prime.dvd_mul hq).mp hdvd with h | h
  · exact Or.inl ((Nat.prime_dvd_prime_iff_eq hq Nat.prime_two).mp (hq.dvd_of_dvd_pow h))
  rcases (Nat.Prime.dvd_mul hq).mp h with h | h
  · exact Or.inr (Or.inl ((Nat.prime_dvd_prime_iff_eq hq (by norm_num)).mp h))
  rcases (Nat.Prime.dvd_mul hq).mp h with h | h
  · exact Or.inr (Or.inr (Or.inl ((Nat.prime_dvd_prime_iff_eq hq (by norm_num)).mp h)))
  rcases (Nat.Prime.dvd_mul hq).mp h with h | h
  · exact Or.inr (Or.inr (Or.inr (Or.inl ((Nat.prime_dvd_prime_iff_eq hq (by norm_num)).mp h))))
  rcases (Nat.Prime.dvd_mul hq).mp h with h | h
  · exact Or.inr (Or.inr (Or.inr (Or.inr (Or.inl
      ((Nat.prime_dvd_prime_iff_eq hq (by norm_num)).mp h)))))
  · exact Or.inr (Or.inr (Or.inr (Or.inr (Or.inr
      ((Nat.prime_dvd_prime_iff_eq hq (by norm_num)).mp h)))))

/-- The Goldilocks order 2^64 - 2^32 + 1 is prime, by a Lucas certificate
with primitive root 7. -/
theorem goldilocks_prime : Nat.Prime goldilocks := by
  apply lucas_primality goldilocks 7
  · rw [seven_pow_cast (goldilocks - 1) (by decide),
        show powModAux goldilocks 7 64 (goldilocks - 1) = 1 from by decide]
    exact Nat.cast_one
  · intro q hq hdvd hcontra
    have hmodeq : powModAux goldilocks 7 64 ((goldilocks - 1) / q) ≡ 1 [MOD goldilocks] := by
      refine (ZMod.natCast_eq_natCast_iff _ _ _).mp ?_
      rw [← seven_pow_cast ((goldilocks - 1) / q) ?_, hcontra, Nat.cast_one]
      have : (goldilocks - 1) / q ≤ goldilocks - 1 := Nat.div_le_self _ _
      have : goldilocks - 1 < 2 ^ 64 := by decide
      omega
    rcases goldilocks_sub_one_primes hq hdvd with rfl | rfl | rfl | rfl | rfl | rfl
    all_goals exact absurd hmodeq (by decide)

/-- In a finite cyclic group, an element whose (card / n)-th power is the
identity is an n-th power, for n dividing the group order. -/
theorem cyclic_pow_surj {G : Type} [Group G] [Fintype G] [IsCyclic G] {n : Nat}
    (hn : n ∣ Fintype.card G) (a : G) (ha : a ^ (Fintype.card G / n) = 1) :
    ∃ b : G, b ^ n = a := by
  obtain ⟨g, hg⟩ := IsCyclic.exists_generator (α := G)
  obtain ⟨k, hk0⟩ := mem_powers_iff_mem_zpowers.mpr (hg a)
  have hk : g ^ k = a := hk0
  have hcard : orderOf g = Fintype.card G := by
    rw [orderOf_eq_card_of_forall_mem_zpowers hg, Nat.card_eq_fintype_card]
  obtain ⟨m, hm⟩ := hn
  have hcard0 : Fintype.card G ≠ 0 := Fintype.card_ne_zero
  have hn0 : n ≠ 0 := by
    rintro rfl
    rw [Nat.zero_mul] at hm
    exact hcard0 hm
  have hm0 : 0 < m := by
    rcases Nat.eq_zero_or_pos m with h0 | h0
    · subst h0
      rw [Nat.mul_zero] at hm
      exact absurd hm hcard0
    · exact h0
  have hdivm : Fintype.card G / n = m := by
    rw [hm]; exact Nat.mul_div_cancel_left m (Nat.pos_of_ne_zero hn0)
  rw [hdivm, ← hk, ← pow_mul] at ha
  have hord : n * m ∣ k * m := by
    rw [← hm, ← hcard]
    exact orderOf_dvd_of_pow_eq_one ha
  obtain ⟨j, hj⟩ := (Nat.mul_dvd_mul_iff_right hm0).mp hord
  refine ⟨g ^ j, ?_⟩
  rw [← pow_mul, mul_comm j n, ← hj, hk]

/-- In the prime field ZMod p, a nonzero x with x ^ ((p-1)/n) = 1 has an
n-th root, for n dividing p - 1. -/
theorem zmod_exists_nth_root {p n : Nat} (hp : p.Prime) (hn : n ∣ p - 1) (x : ZMod p)
    (hx : x ≠ 0) (h : x ^ ((p - 1) / n) = 1) : ∃ y : ZMod p, y ^ n = x := by
  haveI : Fact p.Prime := ⟨hp⟩
  have hcard : Fintype.card (ZMod p)ˣ = p - 1 := ZMod.card_units p
  have hu : (Units.mk0 x hx) ^ (Fintype.card (ZMod p)ˣ / n) = 1 := by
    apply Units.ext
    rw [Units.val_pow_eq_pow_val, Units.val_mk0, hcard, h, Units.val_one]
  obtain ⟨b, hb⟩ := cyclic_pow_surj (hcard ▸ hn) (Units.mk0 x hx) hu
  refine ⟨(b : ZMod p), ?_⟩
  rw [← Units.val_pow_eq_pow_val, hb, Units.val_mk0]

/-- C10: the rejection-sampling loop of main terminates only with a field
value val with val ^ ((p-1)/N) = 1 (N = 3, p the Goldilocks order), and
every such value is an N-th power residue: the value seeded into the
x_pow_n slot always has an N-th root in the field. -/
theorem rejection_loop_nth_residue (vs : List Nat) (val : Nat)
    (h : rejectionLoop goldilocks goldiEuler vs = some val) :
    val ^ goldiEuler % goldilocks = 1 ∧ ∃ u, u ^ 3 % goldilocks = val := by
  have hinv : val < goldilocks ∧ powModAux goldilocks val 64 goldiEuler = 1 := by
    induction vs with
    | nil => cases h
    | cons v rest ih =>
      simp only [rejectionLoop] at h
      split at h
      next hc =>
        cases h
        exact ⟨Nat.mod_lt _ (by decide), hc⟩
      next hc => exact ih h
  obtain ⟨hlt, hpow⟩ := hinv
  have h1 : val ^ goldiEuler % goldilocks = 1 := by
    rw [← powModAux_correct goldilocks 64 val goldiEuler (by decide), hpow]
  refine ⟨h1, ?_⟩
  haveI : Fact (Nat.Prime goldilocks) := ⟨goldilocks_prime⟩
  have hcast : ((val : Nat) : ZMod goldilocks) ^ goldiEuler = 1 := by
    rw [← Nat.cast_pow, ← ZMod.natCast_mod, h1, Nat.cast_one]
  have hne : ((val : Nat) : ZMod goldilocks) ≠ 0 := by
    intro h0
    rw [h0, zero_pow (by decide : goldiEuler ≠ 0)] at hcast
    exact zero_ne_one hcast
  obtain ⟨y, hy⟩ := zmod_exists_nth_root goldilocks_prime
    (by decide : (3 : Nat) ∣ goldilocks - 1) _ hne hcast
  refine ⟨y.val, ?_⟩
  have hyv : ((y.val ^ 3 % goldilocks : Nat) : ZMod goldilocks) =
      ((val : Nat) : ZMod goldilocks) := by
    rw [ZMod.natCast_mod, Nat.cast_pow, ZMod.natCast_rightInverse y, hy]
  have hmod := (ZMod.natCast_eq_natCast_iff _ _ _).mp hyv
  rw [Nat.ModEq, Nat.mod_eq_of_lt hlt, Nat.mod_mod] at hmod
  exact hmod

/-- Witness for C10: the sample stream starting at 27 = 3^3 passes the
residue test immediately, and 27 indeed has a cube root mod Goldilocks. -/
theorem rejection_loop_nth_residue_witness :
    27 ^ goldiEuler % goldilocks = 1 ∧ ∃ u, u ^ 3 % goldilocks = 27 :=
  rejection_loop_nth_residue [27] 27 (by decide)

end Plonky2Spec
